import Mathlib

/-!
Verification of `src/missing_date.py` (partition gap checker).

The development shallowly embeds the Python program:

* A naive `datetime` value (as produced by `datetime.strptime(s, "%Y-%m-%d
  %H:%M:%S")`) is represented by the integer number of seconds between it and
  1970-01-01 00:00:00 on the naive (timezone-less) timeline.  Comparison of
  naive datetimes is chronological comparison of these integers, and adding
  `timedelta(days=1)` adds 86400.
* `datetime.timestamp()` (a local-timezone dependent quantity) is kept
  abstract: functions that need it take a parameter `ts : Int → Int`.
* Python strings are `List Char` (ASCII data; the embedded `str.strip`,
  `str.split`, `str.lower`, `int(...)` and `strptime` handle the ASCII
  fragment that the program's inputs use).
* The mutable scanning loop of `parse_result_file` becomes a structurally
  recursive function over the list of input lines carrying the loop state
  (accumulated dict, current table, current data buffer); the Python dict is
  an insertion-ordered association list whose assignment keeps the original
  position of an existing key.
-/

namespace MissingDate

/-! ## Calendar arithmetic (civil calendar, proleptic Gregorian) -/

/-- Number of seconds in one day; `timedelta(days=1)` on naive datetimes. -/
def oneDay : Int := 86400

/-- Leap year test of the Gregorian calendar. -/
def isLeap (y : Nat) : Bool :=
  (y % 4 == 0 && y % 100 != 0) || y % 400 == 0

/-- Number of days in month `m` (1..12) of year `y`. -/
def daysInMonth (y m : Nat) : Nat :=
  if m = 2 then (if isLeap y then 29 else 28)
  else if m = 4 ∨ m = 6 ∨ m = 9 ∨ m = 11 then 30
  else 31

/-- Days elapsed from 1970-01-01 to the civil date `y-m-d` (Howard Hinnant's
`days_from_civil`, specialised to years `y ≥ 1` so that all intermediate
quantities are natural numbers). -/
def days_from_civil (y m d : Nat) : Int :=
  let yp := if m ≤ 2 then y - 1 else y
  let era := yp / 400
  let yoe := yp % 400
  let mp := (m + 9) % 12
  let doy := (153 * mp + 2) / 5 + d - 1
  let doe := yoe * 365 + yoe / 4 - yoe / 100 + doy
  (era * 146097 + doe : Int) - 719468

/-- Civil date `(year, month, day)` of the day `z` days after 1970-01-01
(Howard Hinnant's `civil_from_days`; `Int.ediv`/`Int.emod` are floor
division/modulus for the positive divisors used here). -/
def civil_from_days (z : Int) : Int × Nat × Nat :=
  let z := z + 719468
  let era := z.ediv 146097
  let doe := (z - era * 146097).toNat
  let yoe := (doe - doe / 1460 + doe / 36524 - doe / 146096) / 365
  let y : Int := (yoe : Int) + era * 400
  let doy := doe - (365 * yoe + yoe / 4 - yoe / 100)
  let mp := (5 * doy + 2) / 153
  let d := doy - (153 * mp + 2) / 5 + 1
  let m := if mp < 10 then mp + 3 else mp - 9
  (if m ≤ 2 then y + 1 else y, m, d)

/-- Naive datetime `y-m-d H:M:S` as seconds since 1970-01-01 00:00:00 on the
naive timeline. -/
def mkDateTime (y m d H M S : Nat) : Int :=
  days_from_civil y m d * oneDay + (H * 3600 + M * 60 + S : Nat)

/-! ## Python string primitives -/

/-- Whitespace characters recognised by `str.strip()` / `str.split()` /
regex `\s` for the ASCII range. -/
def pyIsSpace (c : Char) : Bool :=
  c == ' ' || c == '\t' || c == '\n' || c == '\r' ||
  c == (Char.ofNat 11) || c == (Char.ofNat 12)

/-- Embedding of Python `str.strip()` (no arguments): remove leading and
trailing whitespace. -/
def pyStrip (s : List Char) : List Char :=
  ((s.dropWhile pyIsSpace).reverse.dropWhile pyIsSpace).reverse

/-- Helper for `pySplit`: scans the string, accumulating the current word in
reverse. -/
def pySplitAux : List Char → List Char → List (List Char)
  | [], acc => if acc.isEmpty then [] else [acc.reverse]
  | c :: rest, acc =>
    if pyIsSpace c then
      if acc.isEmpty then pySplitAux rest [] else acc.reverse :: pySplitAux rest []
    else pySplitAux rest (c :: acc)

/-- Embedding of Python `str.split()` (no arguments): split on runs of
whitespace, discarding empty parts. -/
def pySplit (s : List Char) : List (List Char) := pySplitAux s []

/-- Embedding of Python `str.lower()` (ASCII fragment). -/
def pyLower (s : List Char) : List Char := s.map Char.toLower

/-- Embedding of the Python substring test `needle in haystack`. -/
def containsSub (needle : List Char) : List Char → Bool
  | [] => needle.isEmpty
  | c :: rest => needle.isPrefixOf (c :: rest) || containsSub needle rest

/-- Digit value of an ASCII digit character. -/
def digitVal (c : Char) : Nat := c.toNat - 48

/-- Helper for `pyInt`: parses the digit string after the optional sign,
allowing single underscores between digits as Python `int()` does.  `acc` is
the value of the digits consumed so far; the first clause of the recursion is
only reached after at least one digit has been consumed. -/
def pyIntDigits : List Char → Nat → Option Nat
  | [], acc => some acc
  | '_' :: c :: rest, acc =>
    if c.isDigit then pyIntDigits rest (acc * 10 + digitVal c) else none
  | c :: rest, acc =>
    if c.isDigit then pyIntDigits rest (acc * 10 + digitVal c) else none

/-- Helper for `pyInt`: a nonempty digit string (underscores allowed between
digits), evaluated to its numeric value. -/
def pyIntBody : List Char → Option Nat
  | [] => none
  | c :: rest => if c.isDigit then pyIntDigits rest (digitVal c) else none

/-- Embedding of Python `int(s)` on a decimal string: optional surrounding
whitespace, optional sign, then a nonempty digit string (ASCII fragment). -/
def pyInt (s : List Char) : Option Int :=
  match pyStrip s with
  | '+' :: rest => (pyIntBody rest).map (fun n => (n : Int))
  | '-' :: rest => (pyIntBody rest).map (fun n => -(n : Int))
  | rest => (pyIntBody rest).map (fun n => (n : Int))

/-! ## strptime "%Y-%m-%d %H:%M:%S"

CPython's `_strptime` compiles the format into a regex; the field patterns are
`%Y ↦ \d{4}`, `%m ↦ 1[0-2]|0[1-9]|[1-9]`, `%d ↦ 3[01]|[12]\d|0[1-9]|[1-9]`,
`%H ↦ 2[0-3]|[0-1]\d|\d`, `%M ↦ [0-5]\d|\d`, `%S ↦ 6[0-1]|[0-5]\d|\d`, a
whitespace run in the format matches `\s+`, and the whole input must be
consumed.  Because every field is followed by a non-digit requirement, the
ordered two-digit-then-one-digit alternation below is equivalent to the
backtracking regex.  `datetime.strptime` then constructs a `datetime`, which
additionally validates `1 ≤ year`, `day ≤ daysInMonth` and `second ≤ 59`. -/

/-- Ordered alternation of a two-character parse and a one-character parse, as
in the CPython field regexes. -/
def alt2 (ok2 : Char → Char → Option Nat) (ok1 : Char → Option Nat) :
    List Char → Option (Nat × List Char)
  | a :: b :: rest =>
    match ok2 a b with
    | some v => some (v, rest)
    | none => match ok1 a with
      | some v => some (v, b :: rest)
      | none => none
  | [a] => match ok1 a with
    | some v => some (v, [])
    | none => none
  | [] => none

/-- Field parser for `%Y`: exactly four digits. -/
def pFieldY : List Char → Option (Nat × List Char)
  | a :: b :: c :: d :: rest =>
    if a.isDigit && b.isDigit && c.isDigit && d.isDigit then
      some (((digitVal a * 10 + digitVal b) * 10 + digitVal c) * 10 + digitVal d, rest)
    else none
  | _ => none

/-- Field parser for `%m`: `1[0-2]|0[1-9]|[1-9]`. -/
def pFieldM : List Char → Option (Nat × List Char) :=
  alt2
    (fun a b =>
      if a == '1' && ('0' ≤ b && b ≤ '2') then some (10 + digitVal b)
      else if a == '0' && ('1' ≤ b && b ≤ '9') then some (digitVal b)
      else none)
    (fun a => if '1' ≤ a && a ≤ '9' then some (digitVal a) else none)

/-- Field parser for `%d`: `3[01]|[12]\d|0[1-9]|[1-9]`. -/
def pFieldD : List Char → Option (Nat × List Char) :=
  alt2
    (fun a b =>
      if a == '3' && ('0' ≤ b && b ≤ '1') then some (30 + digitVal b)
      else if ('1' ≤ a && a ≤ '2') && b.isDigit then some (digitVal a * 10 + digitVal b)
      else if a == '0' && ('1' ≤ b && b ≤ '9') then some (digitVal b)
      else none)
    (fun a => if '1' ≤ a && a ≤ '9' then some (digitVal a) else none)

/-- Field parser for `%H`: `2[0-3]|[0-1]\d|\d`. -/
def pFieldH : List Char → Option (Nat × List Char) :=
  alt2
    (fun a b =>
      if a == '2' && ('0' ≤ b && b ≤ '3') then some (20 + digitVal b)
      else if ('0' ≤ a && a ≤ '1') && b.isDigit then some (digitVal a * 10 + digitVal b)
      else none)
    (fun a => if a.isDigit then some (digitVal a) else none)

/-- Field parser for `%M`: `[0-5]\d|\d`. -/
def pFieldMin : List Char → Option (Nat × List Char) :=
  alt2
    (fun a b =>
      if ('0' ≤ a && a ≤ '5') && b.isDigit then some (digitVal a * 10 + digitVal b)
      else none)
    (fun a => if a.isDigit then some (digitVal a) else none)

/-- Field parser for `%S`: `6[0-1]|[0-5]\d|\d`. -/
def pFieldS : List Char → Option (Nat × List Char) :=
  alt2
    (fun a b =>
      if a == '6' && ('0' ≤ b && b ≤ '1') then some (60 + digitVal b)
      else if ('0' ≤ a && a ≤ '5') && b.isDigit then some (digitVal a * 10 + digitVal b)
      else none)
    (fun a => if a.isDigit then some (digitVal a) else none)

/-- Expect a literal character. -/
def expectChar (c : Char) : List Char → Option (List Char)
  | a :: rest => if a == c then some rest else none
  | [] => none

/-- Match `\s+` (greedy; the following field starts with a digit, so greedy
matching is exact). -/
def pWhite : List Char → Option (List Char)
  | a :: rest => if pyIsSpace a then some (rest.dropWhile pyIsSpace) else none
  | [] => none

/-- Embedding of `datetime.strptime(s, "%Y-%m-%d %H:%M:%S")`: returns the
naive datetime as seconds since 1970-01-01 00:00:00, or `none` when a
`ValueError` is raised (regex mismatch, unconverted trailing data, or
`datetime` constructor validation). -/
def parseYmdHms (s : List Char) : Option Int := do
  let (y, s) ← pFieldY s
  let s ← expectChar '-' s
  let (m, s) ← pFieldM s
  let s ← expectChar '-' s
  let (d, s) ← pFieldD s
  let s ← pWhite s
  let (H, s) ← pFieldH s
  let s ← expectChar ':' s
  let (Mi, s) ← pFieldMin s
  let s ← expectChar ':' s
  let (S, s) ← pFieldS s
  if s.isEmpty ∧ 1 ≤ y ∧ d ≤ daysInMonth y m ∧ S ≤ 59 then
    some (mkDateTime y m d H Mi S)
  else none

/-! ## Sanity checks of the datetime embedding -/

example : mkDateTime 2025 1 1 0 0 0 = 20089 * 86400 := by decide

example : parseYmdHms "2025-01-01 00:00:00".data = some (mkDateTime 2025 1 1 0 0 0) := by
  decide

example : parseYmdHms "2025-13-01 00:00:00".data = none := by decide

example : parseYmdHms "2025-02-30 00:00:00".data = none := by decide

example : parseYmdHms "2025-1-1 5:3:7".data = some (mkDateTime 2025 1 1 5 3 7) := by decide

example : parseYmdHms "2025-01-01 00:00:00x".data = none := by decide

example : pyInt "  -42 ".data = some (-42) ∧ pyInt "1_0".data = some 10 ∧
    pyInt "".data = none ∧ pyInt "4x".data = none := by decide

/-! ## PartitionRecord and PartitionChecker construction -/

/-- Raw tuple `(date_str, unix_timestamp, ordinal, row_count)` as produced by
`parse_result_file`. -/
abbrev RawRow := List Char × List Char × List Char × List Char

/-- Embedding of one element of `PartitionChecker.partitions`: the dict
`{"date": ..., "unix_ts": ..., "ordinal": ..., "rows": ...}`. -/
structure PartitionRecord where
  date : Int
  unix_ts : Int
  ordinal : Int
  rows : Int
  deriving DecidableEq, Repr

/-- Embedding of the body of the `for row in partition_data` loop of
`PartitionChecker.__init__`: a row yields a record exactly when
`datetime.strptime(row[0], "%Y-%m-%d %H:%M:%S")`, `int(row[1])`,
`int(row[2])` and `int(row[3])` all succeed; otherwise the row is skipped
(with a printed warning, which has no effect on the data). -/
def parseRow (r : RawRow) : Option PartitionRecord := do
  let date ← parseYmdHms r.1
  let uts ← pyInt r.2.1
  let ord ← pyInt r.2.2.1
  let rws ← pyInt r.2.2.2
  some ⟨date, uts, ord, rws⟩

/-- Comparison used by `self.partitions.sort(key=lambda x: x["date"])`. -/
def dateLe (a b : PartitionRecord) : Prop := a.date ≤ b.date

instance : DecidableRel dateLe := fun a b => by
  unfold dateLe; infer_instance

/-- Embedding of `PartitionChecker.__init__`: parse all rows, dropping
invalid ones, then sort ascending by date.  Python `list.sort` is a stable
ascending sort; a stable ascending sort of a given list is unique, so
insertion sort (stable) has exactly the same input-output behaviour. -/
def initPartitions (rows : List RawRow) : List PartitionRecord :=
  List.insertionSort dateLe (rows.filterMap parseRow)

/-! ## find_missing_dates -/

/-- Embedding of the inner `while expected_next < next_date` loop of
`find_missing_dates`, started at `s = current_date + timedelta(days=1)`:
emit `s` and step by one day while `s < t`.  The `Nat` argument is fuel that
merely bounds the number of iterations (the guard `s < t` is what terminates
the loop); `stepDates` supplies fuel that is always sufficient. -/
def stepGo : Nat → Int → Int → List Int
  | 0, _, _ => []
  | fuel + 1, s, t => if s < t then s :: stepGo fuel (s + oneDay) t else []

/-- Dates emitted by the `while expected_next < next_date` loop when started
at `s` with bound `t`.  Since each iteration advances `s` by `oneDay ≥ 1`,
`(t - s).toNat` bounds the number of iterations. -/
def stepDates (s t : Int) : List Int := stepGo (t - s).toNat s t

/-- Embedding of the `for i in range(len(self.partitions) - 1)` loop of
`find_missing_dates`: for each adjacent pair, run the while loop from
`current_date + timedelta(days=1)`. -/
def fmdGo : List PartitionRecord → List Int
  | a :: b :: rest => stepDates (a.date + oneDay) b.date ++ fmdGo (b :: rest)
  | _ => []

/-- Embedding of `PartitionChecker.find_missing_dates`. -/
def find_missing_dates (ps : List PartitionRecord) : List Int :=
  if ps.length < 2 then [] else fmdGo ps

/-! ## group_consecutive_dates -/

/-- Embedding of the `for i in range(1, len(dates))` loop of
`group_consecutive_dates`, with `cg` the accumulated `current_group` (always
nonempty, so `getLastD` never sees its default). -/
def gcdGo (cg : List Int) : List Int → List (List Int)
  | [] => [cg]
  | d :: rest =>
    if d - cg.getLastD 0 = oneDay then gcdGo (cg ++ [d]) rest
    else cg :: gcdGo [d] rest

/-- Embedding of `PartitionChecker.group_consecutive_dates`. -/
def group_consecutive_dates : List Int → List (List Int)
  | [] => []
  | d :: rest => gcdGo [d] rest

/-! ## Partition names and SQL command synthesis -/

/-- Decimal representation of `n` left-padded with zeros to width `w`
(`strftime` zero-pads `%m`, `%d` to 2 and `%Y` to 4 digits). -/
def padZ (w n : Nat) : String :=
  let s := toString n
  String.mk (List.replicate (w - s.length) '0') ++ s

/-- Embedding of `date.strftime('%Y%m%d')` for a naive datetime given as
seconds since epoch: the civil date of the day that contains it. -/
def strftimeYmd (dt : Int) : String :=
  let c := civil_from_days (dt.ediv oneDay)
  padZ 4 c.1.toNat ++ padZ 2 c.2.1 ++ padZ 2 c.2.2

/-- Embedding of `PartitionChecker.generate_partition_name`. -/
def generate_partition_name (date : Int) : String :=
  "p" ++ strftimeYmd date

/-- Embedding of Python `sep.join(parts)`. -/
def pyJoin (sep : String) : List String → String
  | [] => ""
  | [x] => x
  | x :: y :: rest => x ++ sep ++ pyJoin sep (y :: rest)

/-- Embedding of `PartitionChecker.create_reorganize_command`.  `tname` is
`self.table_name`; `ts` abstracts `lambda d: int(d.timestamp())` (the
local-timezone unix timestamp of a naive datetime, truncated to an integer);
`before_part` is accepted (as in the source) but unused. -/
def create_reorganize_command (tname : String) (ts : Int → Int)
    (before_part after_part : PartitionRecord) (missing_dates : List Int) : String :=
  let partition_name_after := generate_partition_name after_part.date
  let cmd := "ALTER TABLE " ++ tname ++ "\n"
  let cmd := cmd ++ "REORGANIZE PARTITION " ++ partition_name_after ++ " INTO (\n"
  let all_partitions := missing_dates.map (fun missing_date =>
    "  PARTITION " ++ generate_partition_name missing_date ++
    " VALUES LESS THAN (" ++ toString (ts missing_date) ++ ") ENGINE = InnoDB")
  let all_partitions := all_partitions ++
    ["  PARTITION " ++ generate_partition_name after_part.date ++
     " VALUES LESS THAN (" ++ toString after_part.unix_ts ++ ") ENGINE = InnoDB"]
  let _ := before_part
  cmd ++ pyJoin ",\n" all_partitions ++ "\n);"

/-- Embedding of the `for p in self.partitions` scan of
`generate_reorganize_commands`: `before` carries the last partition seen with
date before `startD`; the scan stops (`break`) at the first partition with
date after `endD` (the `after_partition is None` conjunct is kept from the
source although the `break` makes it always true). -/
def findSurrounding (startD endD : Int) :
    List PartitionRecord → Option PartitionRecord → Option PartitionRecord →
    Option PartitionRecord × Option PartitionRecord
  | [], before, after => (before, after)
  | p :: rest, before, after =>
    if p.date < startD then findSurrounding startD endD rest (some p) after
    else if p.date > endD && after.isNone then (before, some p)
    else findSurrounding startD endD rest before after

/-- Embedding of `PartitionChecker.generate_reorganize_commands`. -/
def generate_reorganize_commands (tname : String) (ts : Int → Int)
    (ps : List PartitionRecord) (missing_dates : List Int) : List String :=
  if missing_dates.isEmpty then []
  else
    (group_consecutive_dates missing_dates).filterMap fun group =>
      match findSurrounding (group.headD 0) (group.getLastD 0) ps none none with
      | (some before_partition, some after_partition) =>
        some (create_reorganize_command tname ts before_partition after_partition group)
      | _ => none

/-! ## Sanity checks of the checker embedding -/

example :
    find_missing_dates [⟨mkDateTime 2025 1 1 0 0 0, 1, 1, 0⟩,
      ⟨mkDateTime 2025 1 5 0 0 0, 2, 2, 0⟩] =
    [mkDateTime 2025 1 2 0 0 0, mkDateTime 2025 1 3 0 0 0, mkDateTime 2025 1 4 0 0 0] := by
  decide

example : generate_partition_name (mkDateTime 2025 10 9 0 0 0) = "p20251009" := by decide

example :
    group_consecutive_dates [mkDateTime 2025 1 2 0 0 0, mkDateTime 2025 1 3 0 0 0,
      mkDateTime 2025 1 4 0 0 0, mkDateTime 2025 1 10 0 0 0] =
    [[mkDateTime 2025 1 2 0 0 0, mkDateTime 2025 1 3 0 0 0, mkDateTime 2025 1 4 0 0 0],
     [mkDateTime 2025 1 10 0 0 0]] := by decide

/-! ## parse_result_file -/

/-- Embedding of the Python dict `tables_data`: an insertion-ordered
association list.  `dictInsert` is dict assignment: replacing the value of an
existing key keeps its original position, a new key is appended. -/
abbrev Tables := List (List Char × List RawRow)

instance : DecidableEq (List Char × List RawRow) := @instDecidableEqProd _ _ _ _

instance : DecidableEq Tables := @instDecidableEqList _ _

/-- Dict assignment `tables_data[k] = v`. -/
def dictInsert : Tables → List Char → List RawRow → Tables
  | [], k, v => [(k, v)]
  | (k', v') :: rest, k, v =>
    if k' = k then (k', v) :: rest else (k', v') :: dictInsert rest k v

/-- Dict lookup `tables_data.get(k)`. -/
def dictLookup : Tables → List Char → Option (List RawRow)
  | [], _ => none
  | (k', v') :: rest, k => if k' = k then some v' else dictLookup rest k

/-- Embedding of `re.match(r"\d{4}-\d{2}-\d{2}", line)`: the line starts with
four digits, a dash, two digits, a dash, two digits. -/
def dateMatch : List Char → Bool
  | y1 :: y2 :: y3 :: y4 :: h1 :: m1 :: m2 :: h2 :: d1 :: d2 :: _ =>
    y1.isDigit && y2.isDigit && y3.isDigit && y4.isDigit && h1 == '-' &&
    m1.isDigit && m2.isDigit && h2 == '-' && d1.isDigit && d2.isDigit
  | _ => false

/-- Embedding of `line.startswith(" ")`. -/
def startsWithSpace : List Char → Bool
  | c :: _ => c == ' '
  | [] => false

/-- Needle of the first header test. -/
def fuNeedle : List Char := "from_unixtime".data

/-- Needle of the second header test. -/
def pdNeedle : List Char := "partition_description".data

/-- Embedding of the header test
`"from_unixtime" in line.lower() or "partition_description" in line.lower()`. -/
def isHeaderLine (line : List Char) : Bool :=
  containsSub fuNeedle (pyLower line) || containsSub pdNeedle (pyLower line)

/-- Embedding of lines 255-265: on a line whose stripped form matches the date
regex, split on whitespace; with at least 4 parts, build the tuple
`(f"{parts[0]} {parts[1]}", parts[2], parts[3], parts[4] if len(parts) > 4
else "0")`; with fewer parts, no tuple. -/
def dataTuple (line : List Char) : Option RawRow :=
  match pySplit line with
  | p0 :: p1 :: p2 :: p3 :: restp => some (p0 ++ ' ' :: p1, p2, p3, restp.headD ['0'])
  | _ => none

/-- Flush step (lines 231-234 and 269-271): `if current_table and
current_data: tables_data[current_table] = current_data; current_data = []`.
A non-`None` `current_table` is always a nonempty string, so Python truthiness
of `current_table` is `Option.isSome`. -/
def flushAcc (td : Tables) (ct : Option (List Char)) (cd : List RawRow) :
    Tables × List RawRow :=
  match ct with
  | some t => if cd.isEmpty then (td, cd) else (dictInsert td t cd, [])
  | none => (td, cd)

/-- Final flush at the end of the scan (lines 269-271), returning the dict. -/
def finalSave (td : Tables) (ct : Option (List Char)) (cd : List RawRow) : Tables :=
  (flushAcc td ct cd).1

/-- Embedding of the `while i < len(lines)` scanning loop of
`parse_result_file` over the remaining raw lines, carrying the loop state
`(tables_data, current_table, current_data)`.  The first pattern is the loop
exit followed by the final flush; the second pattern is an iteration on the
last line (where the table-branch lookahead `i < len(lines)` fails and the
loop then exits, so the continuation is the final flush); the third pattern is
an iteration with at least one further line available for the lookahead. -/
def parseLoop : List (List Char) → Tables → Option (List Char) → List RawRow → Tables
  | [], td, ct, cd => finalSave td ct cd
  | [l], td, ct, cd =>
    let line := pyStrip l
    if line.isEmpty then finalSave td ct cd
    else if !startsWithSpace line && !dateMatch line then
      let p := flushAcc td ct cd
      if isHeaderLine line then finalSave p.1 ct p.2
      else finalSave p.1 (some line) p.2
    else if dateMatch line then
      match dataTuple line with
      | some t => finalSave td ct (cd ++ [t])
      | none => finalSave td ct cd
    else finalSave td ct cd
  | l :: r :: rest', td, ct, cd =>
    let line := pyStrip l
    if line.isEmpty then parseLoop (r :: rest') td ct cd
    else if !startsWithSpace line && !dateMatch line then
      let p := flushAcc td ct cd
      if isHeaderLine line then parseLoop (r :: rest') p.1 ct p.2
      else if containsSub fuNeedle (pyLower r) then parseLoop rest' p.1 (some line) p.2
      else parseLoop (r :: rest') p.1 (some line) p.2
    else if dateMatch line then
      match dataTuple line with
      | some t => parseLoop (r :: rest') td ct (cd ++ [t])
      | none => parseLoop (r :: rest') td ct cd
    else parseLoop (r :: rest') td ct cd

/-- Embedding of the successful path of `parse_result_file` on the list of
raw lines read from the file. -/
def parse_result_file (lines : List (List Char)) : Tables :=
  parseLoop lines [] none []

/-- Event recorded by one invocation of the flush step: the binding it writes
into the dict, if any. -/
def flushEv (ct : Option (List Char)) (cd : List RawRow) :
    List (List Char × List RawRow) :=
  match ct with
  | some t => if cd.isEmpty then [] else [(t, cd)]
  | none => []

/-- Instrumented variant of `parseLoop` that records, in chronological order,
every flush event `(table, data)` performed by `flushAcc`/`finalSave` (each
event has nonempty data by the flush guard).  Used to characterise which
accumulation run a table name ends up bound to. -/
def flushEvents : List (List Char) → Option (List Char) → List RawRow →
    List (List Char × List RawRow)
  | [], ct, cd => flushEv ct cd
  | [l], ct, cd =>
    let line := pyStrip l
    if line.isEmpty then flushEv ct cd
    else if !startsWithSpace line && !dateMatch line then
      let p := flushAcc ([] : Tables) ct cd
      if isHeaderLine line then flushEv ct cd ++ flushEv ct p.2
      else flushEv ct cd ++ flushEv (some line) p.2
    else if dateMatch line then
      match dataTuple line with
      | some t => flushEv ct (cd ++ [t])
      | none => flushEv ct cd
    else flushEv ct cd
  | l :: r :: rest', ct, cd =>
    let line := pyStrip l
    if line.isEmpty then flushEvents (r :: rest') ct cd
    else if !startsWithSpace line && !dateMatch line then
      let p := flushAcc ([] : Tables) ct cd
      if isHeaderLine line then flushEv ct cd ++ flushEvents (r :: rest') ct p.2
      else if containsSub fuNeedle (pyLower r) then
        flushEv ct cd ++ flushEvents rest' (some line) p.2
      else flushEv ct cd ++ flushEvents (r :: rest') (some line) p.2
    else if dateMatch line then
      match dataTuple line with
      | some t => flushEvents (r :: rest') ct (cd ++ [t])
      | none => flushEvents (r :: rest') ct cd
    else flushEvents (r :: rest') ct cd

/-! ## Exit code model of main -/

/-- Outcome of reading `result.txt`: either the raw lines, or a read failure
(`FileNotFoundError` or any other exception while opening/reading). -/
inductive ReadOutcome where
  | failure : ReadOutcome
  | ok : List (List Char) → ReadOutcome

/-- Embedding of the process exit code of `main()` (lines 273-278 and
294-305): `parse_result_file` calls `sys.exit(1)` on a read failure; `main`
calls `sys.exit(1)` when the parsed dict is empty; otherwise `main` runs to
completion and the process exits with 0.  The report/SQL writing section is
modelled as completing normally. -/
def mainExitCode : ReadOutcome → Nat
  | .failure => 1
  | .ok lines => if parse_result_file lines = ([] : Tables) then 1 else 0

/-! ## Sanity checks of the parser embedding -/

example :
    parse_result_file ["mytable".data,
      "from_unixtime(PARTITION_DESCRIPTION) PARTITION_DESCRIPTION PARTITION_ORDINAL_POSITION TABLE_ROWS".data,
      "2025-10-09 00:00:00 1759964400 90 0".data,
      "2025-10-08 00:00:00 1759878000 89".data] =
    [("mytable".data,
      [("2025-10-09 00:00:00".data, "1759964400".data, "90".data, "0".data),
       ("2025-10-08 00:00:00".data, "1759878000".data, "89".data, "0".data)])] := by
  decide

example : mainExitCode (.ok ["junk without data".data]) = 1 := by decide

/-! ## Lemmas about group_consecutive_dates -/

theorem gcdGo_flatten (rest : List Int) :
    ∀ cg, (gcdGo cg rest).flatten = cg ++ rest := by
  induction rest with
  | nil => intro cg; simp [gcdGo]
  | cons d rest ih =>
    intro cg
    by_cases h : d - cg.getLastD 0 = oneDay
    · simp only [gcdGo]; rw [if_pos h, ih]; simp
    · simp only [gcdGo]; rw [if_neg h]; simp [ih]

theorem gcdGo_ne_nil (rest : List Int) :
    ∀ cg, cg ≠ [] → ∀ g ∈ gcdGo cg rest, g ≠ [] := by
  induction rest with
  | nil => intro cg hcg g hg; simp [gcdGo] at hg; simpa [hg]
  | cons d rest ih =>
    intro cg hcg g hg
    by_cases h : d - cg.getLastD 0 = oneDay
    · simp only [gcdGo, if_pos h] at hg
      exact ih (cg ++ [d]) (by simp) g hg
    · simp only [gcdGo, if_neg h, List.mem_cons] at hg
      rcases hg with rfl | hg
      · exact hcg
      · exact ih [d] (by simp) g hg

theorem gcdGo_head (rest : List Int) :
    ∀ x cg', ∃ t gs, gcdGo (x :: cg') rest = (x :: t) :: gs := by
  induction rest with
  | nil => intro x cg'; exact ⟨cg', [], rfl⟩
  | cons d rest ih =>
    intro x cg'
    by_cases h : d - (x :: cg').getLastD 0 = oneDay
    · simp only [gcdGo]; rw [if_pos h, List.cons_append]
      exact ih x (cg' ++ [d])
    · simp only [gcdGo]; rw [if_neg h]
      exact ⟨cg', gcdGo [d] rest, rfl⟩

theorem chain'_append_singleton {R : Int → Int → Prop} {l : List Int} {d : Int}
    (hl : l.Chain' R) (hne : l ≠ []) (hR : R (l.getLastD 0) d) :
    (l ++ [d]).Chain' R := by
  rw [List.chain'_append]
  refine ⟨hl, List.chain'_singleton d, ?_⟩
  intro x hx y hy
  simp only [List.head?_cons, Option.mem_def, Option.some.injEq] at hy
  subst hy
  rw [List.getLast?_eq_getLast l hne, Option.mem_def, Option.some.injEq] at hx
  subst hx
  rwa [List.getLastD_eq_getLast?, List.getLast?_eq_getLast l hne, Option.getD_some] at hR

theorem gcdGo_chain_within (rest : List Int) :
    ∀ cg, cg ≠ [] → cg.Chain' (fun a b => b - a = oneDay) →
      ∀ g ∈ gcdGo cg rest, g.Chain' (fun a b => b - a = oneDay) := by
  induction rest with
  | nil => intro cg _ hch g hg; simp [gcdGo] at hg; simpa [hg]
  | cons d rest ih =>
    intro cg hcg hch g hg
    by_cases h : d - cg.getLastD 0 = oneDay
    · simp only [gcdGo, if_pos h] at hg
      exact ih (cg ++ [d]) (by simp) (chain'_append_singleton hch hcg h) g hg
    · simp only [gcdGo, if_neg h, List.mem_cons] at hg
      rcases hg with rfl | hg
      · exact hch
      · exact ih [d] (by simp) (List.chain'_singleton d) g hg

theorem gcdGo_boundary (rest : List Int) :
    ∀ cg, cg ≠ [] →
      (gcdGo cg rest).Chain' (fun g₁ g₂ => g₂.headD 0 - g₁.getLastD 0 ≠ oneDay) := by
  induction rest with
  | nil => intro cg _; simp [gcdGo]
  | cons d rest ih =>
    intro cg hcg
    by_cases h : d - cg.getLastD 0 = oneDay
    · simp only [gcdGo, if_pos h]
      exact ih (cg ++ [d]) (by simp)
    · simp only [gcdGo, if_neg h]
      rw [List.chain'_cons']
      refine ⟨?_, ih [d] (by simp)⟩
      intro g hg
      obtain ⟨t, gs, hE⟩ := gcdGo_head rest d []
      rw [hE] at hg
      simp only [List.head?_cons, Option.mem_def, Option.some.injEq] at hg
      subst hg
      simpa using h

/-- C2: `group_consecutive_dates` splits its input into contiguous groups
(the groups are nonempty and concatenate back to the input), the step inside
every group is exactly one day, and at every boundary between adjacent groups
the step from the predecessor (the last entry of the previous group, which by
contiguity is the entry's predecessor in the input) is not exactly one day;
in particular [01-02, 01-03, 01-04, 01-10] yields the two groups
[01-02, 01-03, 01-04] and [01-10]. -/
theorem C2_group_consecutive_dates :
    (∀ dates : List Int,
      (group_consecutive_dates dates).flatten = dates ∧
      (∀ g ∈ group_consecutive_dates dates,
        g ≠ [] ∧ g.Chain' (fun a b => b - a = oneDay)) ∧
      (group_consecutive_dates dates).Chain'
        (fun g₁ g₂ => g₂.headD 0 - g₁.getLastD 0 ≠ oneDay)) ∧
    group_consecutive_dates [mkDateTime 2025 1 2 0 0 0, mkDateTime 2025 1 3 0 0 0,
        mkDateTime 2025 1 4 0 0 0, mkDateTime 2025 1 10 0 0 0] =
      [[mkDateTime 2025 1 2 0 0 0, mkDateTime 2025 1 3 0 0 0, mkDateTime 2025 1 4 0 0 0],
       [mkDateTime 2025 1 10 0 0 0]] := by
  refine ⟨?_, by decide⟩
  intro dates
  match dates with
  | [] => exact ⟨rfl, by simp [group_consecutive_dates], by simp [group_consecutive_dates]⟩
  | d :: rest =>
    refine ⟨?_, ?_, ?_⟩
    · simpa [group_consecutive_dates] using gcdGo_flatten rest [d]
    · intro g hg
      exact ⟨gcdGo_ne_nil rest [d] (by simp) g hg,
        gcdGo_chain_within rest [d] (by simp) (List.chain'_singleton d) g hg⟩
    · exact gcdGo_boundary rest [d] (by simp)

/-- Witness for C2: the universally quantified part applied to the concrete
example list, with the group-membership hypothesis discharged there. -/
theorem C2_group_consecutive_dates_witness :
    [mkDateTime 2025 1 2 0 0 0, mkDateTime 2025 1 3 0 0 0, mkDateTime 2025 1 4 0 0 0] ≠ [] ∧
    List.Chain' (fun a b => b - a = oneDay)
      [mkDateTime 2025 1 2 0 0 0, mkDateTime 2025 1 3 0 0 0, mkDateTime 2025 1 4 0 0 0] :=
  (C2_group_consecutive_dates.1
    [mkDateTime 2025 1 2 0 0 0, mkDateTime 2025 1 3 0 0 0,
      mkDateTime 2025 1 4 0 0 0, mkDateTime 2025 1 10 0 0 0]).2.1
    [mkDateTime 2025 1 2 0 0 0, mkDateTime 2025 1 3 0 0 0, mkDateTime 2025 1 4 0 0 0]
    (by decide)

/-! ## Lemmas about find_missing_dates -/

theorem oneDay_pos : (0 : Int) < oneDay := by decide

theorem stepGo_mem (fuel : Nat) : ∀ s t x, x ∈ stepGo fuel s t →
    s ≤ x ∧ x < t ∧ ∃ k : Nat, x = s + oneDay * k := by
  induction fuel with
  | zero => intro s t x hx; simp [stepGo] at hx
  | succ fuel ih =>
    intro s t x hx
    simp only [stepGo] at hx
    by_cases h : s < t
    · rw [if_pos h] at hx
      rcases List.mem_cons.mp hx with rfl | hx
      · exact ⟨le_refl x, h, 0, by ring⟩
      · obtain ⟨h1, h2, k, hk⟩ := ih (s + oneDay) t x hx
        refine ⟨le_trans (by have := oneDay_pos; omega) h1, h2, k + 1, ?_⟩
        rw [hk]; push_cast; ring
    · rw [if_neg h] at hx; simp at hx

theorem stepGo_mem_of (k : Nat) : ∀ (fuel : Nat) (s t x : Int),
    (t - s).toNat ≤ fuel → x = s + oneDay * k → x < t → x ∈ stepGo fuel s t := by
  induction k with
  | zero =>
    intro fuel s t x hfuel hx hlt
    have hs : s < t := by omega
    have : 1 ≤ fuel := by omega
    obtain ⟨f, rfl⟩ := Nat.exists_eq_add_of_le this
    simp only [stepGo, Nat.add_comm]
    rw [if_pos hs]
    simp [hx]
  | succ k ih =>
    intro fuel s t x hfuel hx hlt
    have hday : oneDay = 86400 := rfl
    have hnn : (0 : Int) ≤ oneDay * ((k : Nat) + 1 : Nat) := by rw [hday]; positivity
    have hs : s < t := by omega
    have h1 : 1 ≤ fuel := by omega
    obtain ⟨f, rfl⟩ := Nat.exists_eq_add_of_le h1
    simp only [stepGo, Nat.add_comm]
    rw [if_pos hs]
    refine List.mem_cons_of_mem _ (ih f (s + oneDay) t x ?_ ?_ hlt)
    · omega
    · rw [hx]; push_cast; ring

theorem stepDates_mem (s t x : Int) :
    x ∈ stepDates s t ↔ (∃ k : Nat, x = s + oneDay * k) ∧ x < t := by
  constructor
  · intro hx
    obtain ⟨_, h2, k, hk⟩ := stepGo_mem _ s t x hx
    exact ⟨⟨k, hk⟩, h2⟩
  · rintro ⟨⟨k, hk⟩, hlt⟩
    exact stepGo_mem_of k _ s t x (le_refl _) hk hlt

theorem stepGo_sorted (fuel : Nat) : ∀ s t, (stepGo fuel s t).Pairwise (· < ·) := by
  induction fuel with
  | zero => intro s t; simp [stepGo]
  | succ fuel ih =>
    intro s t
    simp only [stepGo]
    by_cases h : s < t
    · rw [if_pos h]
      refine List.pairwise_cons.mpr ⟨?_, ih (s + oneDay) t⟩
      intro y hy
      have := (stepGo_mem fuel (s + oneDay) t y hy).1
      have := oneDay_pos
      omega
    · rw [if_neg h]; simp

theorem fmdGo_mem : ∀ (ps : List PartitionRecord) (x : Int),
    x ∈ fmdGo ps ↔ ∃ p ∈ ps.zip ps.tail, x ∈ stepDates (p.1.date + oneDay) p.2.date
  | [], x => by simp [fmdGo]
  | [a], x => by simp [fmdGo]
  | a :: b :: rest, x => by
    have ih := fmdGo_mem (b :: rest) x
    simp only [fmdGo, List.mem_append, ih, List.tail_cons, List.zip_cons_cons]
    constructor
    · rintro (h | ⟨p, hp, h⟩)
      · exact ⟨(a, b), by simp, h⟩
      · exact ⟨p, List.mem_cons_of_mem _ hp, h⟩
    · rintro ⟨p, hp, h⟩
      rcases List.mem_cons.mp hp with rfl | hp
      · exact Or.inl h
      · exact Or.inr ⟨p, hp, h⟩

theorem fmdGo_eq_flatMap : ∀ ps : List PartitionRecord,
    fmdGo ps = (ps.zip ps.tail).flatMap (fun p => stepDates (p.1.date + oneDay) p.2.date)
  | [] => by simp [fmdGo]
  | [a] => by simp [fmdGo]
  | a :: b :: rest => by
    simp only [fmdGo, List.tail_cons, List.zip_cons_cons, List.flatMap_cons]
    rw [fmdGo_eq_flatMap (b :: rest)]
    simp [List.tail_cons]

theorem find_missing_dates_eq_fmdGo (ps : List PartitionRecord) :
    find_missing_dates ps = fmdGo ps := by
  unfold find_missing_dates
  match ps with
  | [] => simp [fmdGo]
  | [a] => simp [fmdGo]
  | a :: b :: rest => simp

theorem fmdGo_sorted : ∀ ps : List PartitionRecord,
    ps.Pairwise (fun a b => a.date ≤ b.date) → (fmdGo ps).Pairwise (· < ·)
  | [], _ => by simp [fmdGo]
  | [a], _ => by simp [fmdGo]
  | a :: b :: rest, h => by
    simp only [fmdGo]
    rw [List.pairwise_append]
    refine ⟨stepGo_sorted _ _ _, fmdGo_sorted (b :: rest) h.of_cons, ?_⟩
    intro x hx y hy
    have hxb : x < b.date := (stepGo_mem _ _ _ x hx).2.1
    obtain ⟨p, hp, hystep⟩ := (fmdGo_mem (b :: rest) y).mp hy
    have hyc : p.1.date + oneDay ≤ y := (stepGo_mem _ _ _ y hystep).1
    have hmem : p.1 ∈ b :: rest := (List.of_mem_zip hp).1
    have hbc : b.date ≤ p.1.date := by
      rcases List.mem_cons.mp hmem with heq | hmem
      · rw [heq]
      · exact (List.pairwise_cons.mp h.of_cons).1 _ hmem
    have := oneDay_pos
    omega

/-- Partition record on 2025-01-01 (unix timestamp is the Europe/Paris value
from the module docstring examples; its value is irrelevant to gap finding). -/
def recJan1 : PartitionRecord := ⟨mkDateTime 2025 1 1 0 0 0, 1735686000, 1, 0⟩

/-- Partition record on 2025-01-05. -/
def recJan5 : PartitionRecord := ⟨mkDateTime 2025 1 5 0 0 0, 1736031600, 2, 0⟩

/-- C1: `find_missing_dates` is, pair by adjacent pair of the (date-sorted)
partition list, the concatenation of the dates reached by stepping one day at
a time from the earlier date while strictly below the later date; membership
is characterised accordingly; when the partition list is sorted the output is
strictly ascending; fewer than 2 partitions give the empty list; and with
partitions exactly on 2025-01-01 and 2025-01-05 the result is exactly
[2025-01-02, 2025-01-03, 2025-01-04]. -/
theorem C1_find_missing_dates :
    (∀ ps : List PartitionRecord,
      find_missing_dates ps =
        (ps.zip ps.tail).flatMap (fun p => stepDates (p.1.date + oneDay) p.2.date)) ∧
    (∀ (ps : List PartitionRecord) (x : Int),
      x ∈ find_missing_dates ps ↔
        ∃ p ∈ ps.zip ps.tail, ∃ k : Nat,
          1 ≤ k ∧ x = p.1.date + oneDay * k ∧ x < p.2.date) ∧
    (∀ ps : List PartitionRecord,
      ps.Pairwise (fun a b => a.date ≤ b.date) →
        (find_missing_dates ps).Pairwise (· < ·)) ∧
    (∀ ps : List PartitionRecord, ps.length < 2 → find_missing_dates ps = []) ∧
    find_missing_dates [recJan1, recJan5] =
      [mkDateTime 2025 1 2 0 0 0, mkDateTime 2025 1 3 0 0 0, mkDateTime 2025 1 4 0 0 0] := by
  refine ⟨?_, ?_, ?_, ?_, by decide⟩
  · intro ps; rw [find_missing_dates_eq_fmdGo, fmdGo_eq_flatMap]
  · intro ps x
    rw [find_missing_dates_eq_fmdGo, fmdGo_mem]
    constructor
    · rintro ⟨p, hp, hstep⟩
      obtain ⟨⟨k, hk⟩, hlt⟩ := (stepDates_mem _ _ _).mp hstep
      exact ⟨p, hp, k + 1, by omega, by rw [hk]; push_cast; ring, hlt⟩
    · rintro ⟨p, hp, k, hk1, hkx, hlt⟩
      obtain ⟨k', rfl⟩ := Nat.exists_eq_add_of_le hk1
      refine ⟨p, hp, (stepDates_mem _ _ _).mpr ⟨⟨k', ?_⟩, hlt⟩⟩
      rw [hkx]; push_cast; ring
  · intro ps h; rw [find_missing_dates_eq_fmdGo]; exact fmdGo_sorted ps h
  · intro ps h; unfold find_missing_dates; rw [if_pos h]

/-- Witness for C1: the sortedness part and the short-list part applied at
concrete inputs, discharging the hypotheses there. -/
theorem C1_find_missing_dates_witness :
    (find_missing_dates [recJan1, recJan5]).Pairwise (· < ·) ∧
    find_missing_dates [recJan1] = [] :=
  ⟨C1_find_missing_dates.2.2.1 [recJan1, recJan5] (by decide),
   C1_find_missing_dates.2.2.2.1 [recJan1] (by decide)⟩

/-! ## Lemmas about generate_reorganize_commands -/

/-- Selector written from the spec's words: the nearest existing partition
strictly before date `s`, i.e. the last one seen while scanning the
(ascending) partition list. -/
def specLastBefore (ps : List PartitionRecord) (s : Int) : Option PartitionRecord :=
  (ps.filter (fun p => decide (p.date < s))).getLast?

/-- Selector written from the spec's words: the nearest existing partition
strictly after date `e`, i.e. the first one found while scanning. -/
def specFirstAfter (ps : List PartitionRecord) (e : Int) : Option PartitionRecord :=
  ps.find? (fun p => decide (p.date > e))

theorem getLast?_cons_or {α : Type} (a : α) (l : List α) :
    (a :: l).getLast? = l.getLast?.or (some a) := by
  induction l generalizing a with
  | nil => rfl
  | cons b t ih =>
    rw [List.getLast?_cons_cons, ih b, Option.or_assoc]
    rfl

theorem findSurrounding_eq (s e : Int) :
    ∀ (ps : List PartitionRecord) (b : Option PartitionRecord),
      ps.Pairwise (fun a b => a.date ≤ b.date) → s ≤ e →
      findSurrounding s e ps b none =
        ((specLastBefore ps s).or b, specFirstAfter ps e) := by
  intro ps
  induction ps with
  | nil => intro b _ _; rfl
  | cons p rest ih =>
    intro b hsort hse
    by_cases h1 : p.date < s
    · have hstep : findSurrounding s e (p :: rest) b none =
          findSurrounding s e rest (some p) none := by
        simp only [findSurrounding]; rw [if_pos h1]
      rw [hstep, ih (some p) hsort.of_cons hse]
      have hLB : specLastBefore (p :: rest) s =
          (specLastBefore rest s).or (some p) := by
        unfold specLastBefore
        rw [List.filter_cons_of_pos (by simpa using h1), getLast?_cons_or]
      have hFA : specFirstAfter (p :: rest) e = specFirstAfter rest e := by
        unfold specFirstAfter
        rw [List.find?_cons_of_neg]
        simp only [decide_eq_true_eq, gt_iff_lt]
        omega
      rw [hLB, hFA, Option.or_assoc]
      have : (some p).or b = some p := rfl
      rw [this]
    · by_cases h2 : p.date > e
      · have hstep : findSurrounding s e (p :: rest) b none = (b, some p) := by
          simp only [findSurrounding]
          rw [if_neg h1, if_pos (by simp [h2])]
        have hfilter : (p :: rest).filter (fun q => decide (q.date < s)) = [] := by
          rw [List.filter_eq_nil_iff]
          intro q hq
          simp only [decide_eq_true_eq]
          rcases List.mem_cons.mp hq with rfl | hq
          · omega
          · have : p.date ≤ q.date := (List.pairwise_cons.mp hsort).1 q hq
            omega
        have hLB : specLastBefore (p :: rest) s = none := by
          unfold specLastBefore; rw [hfilter]; rfl
        have hFA : specFirstAfter (p :: rest) e = some p := by
          unfold specFirstAfter
          rw [List.find?_cons_of_pos _ (by simpa using h2)]
        rw [hstep, hLB, hFA]
        rfl
      · have hstep : findSurrounding s e (p :: rest) b none =
            findSurrounding s e rest b none := by
          simp only [findSurrounding]
          rw [if_neg h1, if_neg (by simp [h2])]
        rw [hstep, ih b hsort.of_cons hse]
        have hLB : specLastBefore (p :: rest) s = specLastBefore rest s := by
          unfold specLastBefore
          rw [List.filter_cons_of_neg (by simpa using h1)]
        have hFA : specFirstAfter (p :: rest) e = specFirstAfter rest e := by
          unfold specFirstAfter
          rw [List.find?_cons_of_neg]
          simp only [decide_eq_true_eq]
          omega
        rw [hLB, hFA]

theorem chain_head_le_last :
    ∀ g : List Int, g.Chain' (fun a b => b - a = oneDay) → g ≠ [] →
      g.headD 0 ≤ g.getLastD 0
  | [], _, hne => absurd rfl hne
  | [x], _, _ => le_refl x
  | x :: y :: t, hch, _ => by
    obtain ⟨hxy, hch'⟩ := List.chain'_cons.mp hch
    have ih := chain_head_le_last (y :: t) hch' (by simp)
    have hd : (x :: y :: t).getLastD 0 = (y :: t).getLastD 0 := by
      rw [List.getLastD_cons 0 x (y :: t), List.getLastD_eq_getLast?,
        List.getLastD_eq_getLast?, List.getLast?_eq_getLast (y :: t) (by simp)]
      rfl
    rw [hd]
    simp only [List.headD_cons] at ih ⊢
    have := oneDay_pos
    omega

/-- C3: for every consecutive group of missing dates,
`generate_reorganize_commands` (on a date-sorted partition list) emits a
command exactly when both the spec-side selectors succeed: the last partition
in scan order with date strictly before the group's first missing date, and
the first partition with date strictly after the group's last missing date;
those selected partitions are the ones passed to the command builder; the
selectors succeed precisely when such partitions exist; and a concrete group
missing a before-partition yields zero SQL commands. -/
theorem C3_generate_reorganize_commands :
    (∀ (tname : String) (ts : Int → Int) (ps : List PartitionRecord)
        (missing : List Int),
      ps.Pairwise (fun a b => a.date ≤ b.date) →
      generate_reorganize_commands tname ts ps missing =
        (group_consecutive_dates missing).filterMap (fun g =>
          match specLastBefore ps (g.headD 0), specFirstAfter ps (g.getLastD 0) with
          | some bp, some ap => some (create_reorganize_command tname ts bp ap g)
          | _, _ => none)) ∧
    (∀ (ps : List PartitionRecord) (s : Int),
      (specLastBefore ps s).isSome ↔ ∃ p ∈ ps, p.date < s) ∧
    (∀ (ps : List PartitionRecord) (e : Int),
      (specFirstAfter ps e).isSome ↔ ∃ p ∈ ps, p.date > e) ∧
    generate_reorganize_commands "my_table" (fun x => x) [recJan5]
      [mkDateTime 2025 1 2 0 0 0, mkDateTime 2025 1 3 0 0 0] = [] := by
  refine ⟨?_, ?_, ?_, by decide⟩
  · intro tname ts ps missing hsort
    unfold generate_reorganize_commands
    match missing with
    | [] => rfl
    | d :: rest =>
      rw [if_neg (by simp)]
      apply List.filterMap_congr
      intro g hg
      have hne : g ≠ [] :=
        gcdGo_ne_nil rest [d] (by simp) g (by simpa [group_consecutive_dates] using hg)
      have hchain : g.Chain' (fun a b => b - a = oneDay) :=
        gcdGo_chain_within rest [d] (by simp) (List.chain'_singleton d) g
          (by simpa [group_consecutive_dates] using hg)
      have hle := chain_head_le_last g hchain hne
      rw [findSurrounding_eq (g.headD 0) (g.getLastD 0) ps none hsort hle, Option.or_none]
      cases specLastBefore ps (g.headD 0) <;> cases specFirstAfter ps (g.getLastD 0) <;> rfl
  · intro ps s
    unfold specLastBefore
    rw [List.getLast?_isSome]
    simp [Ne, List.filter_eq_nil_iff]
  · intro ps e
    unfold specFirstAfter
    rw [List.find?_isSome]
    simp

/-- Witness for C3: the command-emission characterisation applied to a
concrete sorted partition list, discharging the sortedness hypothesis. -/
theorem C3_generate_reorganize_commands_witness :
    generate_reorganize_commands "my_table" (fun x => x) [recJan1, recJan5]
        [mkDateTime 2025 1 2 0 0 0] =
      (group_consecutive_dates [mkDateTime 2025 1 2 0 0 0]).filterMap (fun g =>
        match specLastBefore [recJan1, recJan5] (g.headD 0),
            specFirstAfter [recJan1, recJan5] (g.getLastD 0) with
        | some bp, some ap =>
          some (create_reorganize_command "my_table" (fun x => x) bp ap g)
        | _, _ => none) :=
  C3_generate_reorganize_commands.1 "my_table" (fun x => x) [recJan1, recJan5]
    [mkDateTime 2025 1 2 0 0 0] (by decide)

/-! ## Command synthesis (C4) -/

/-- Text of one partition entry of the generated command, as the spec
describes it: a name and its "VALUES LESS THAN" bound. -/
def specEntry (name : String) (bound : Int) : String :=
  "  PARTITION " ++ name ++ " VALUES LESS THAN (" ++ toString bound ++ ") ENGINE = InnoDB"

set_option maxRecDepth 8192

/-- C4: the reorganize command targets the partition named for the
after-partition's date; its body is the comma-newline join of one entry per
missing date, in input (ascending) order, whose bound is that missing date's
own unix timestamp `ts d` (not the following day's `ts (d + oneDay)`),
followed by a final entry re-creating the after-partition with its original
`unix_ts` unchanged; every partition name is "p" followed by the date
formatted YYYYMMDD, e.g. 2025-10-09 gives "p20251009".  The last conjunct
evaluates a whole command, exhibiting the missing date's own timestamp
(1735776000, i.e. 2025-01-02 itself under `ts = id`) as the bound rather
than the following day's start (1735862400). -/
theorem C4_create_reorganize_command :
    (∀ (tname : String) (ts : Int → Int) (bp ap : PartitionRecord)
        (missing : List Int),
      create_reorganize_command tname ts bp ap missing =
        "ALTER TABLE " ++ tname ++ "\n" ++
        "REORGANIZE PARTITION " ++ generate_partition_name ap.date ++ " INTO (\n" ++
        pyJoin ",\n"
          (missing.map (fun d => specEntry (generate_partition_name d) (ts d)) ++
            [specEntry (generate_partition_name ap.date) ap.unix_ts]) ++
        "\n);") ∧
    (∀ d : Int, generate_partition_name d = "p" ++ strftimeYmd d) ∧
    generate_partition_name (mkDateTime 2025 10 9 0 0 0) = "p20251009" ∧
    create_reorganize_command "t" (fun x => x) recJan1 recJan5
        [mkDateTime 2025 1 2 0 0 0] =
      "ALTER TABLE t\nREORGANIZE PARTITION p20250105 INTO (\n" ++
      "  PARTITION p20250102 VALUES LESS THAN (1735776000) ENGINE = InnoDB,\n" ++
      "  PARTITION p20250105 VALUES LESS THAN (1736031600) ENGINE = InnoDB\n);" := by
  refine ⟨?_, fun d => rfl, by decide, by decide⟩
  intro tname ts bp ap missing
  simp [create_reorganize_command, specEntry, String.append_assoc]

/-! ## PartitionChecker construction (C5) -/

/-- Raw data row for 2025-01-01 as `parse_result_file` would produce it. -/
def rowJan1 : RawRow := ("2025-01-01 00:00:00".data, "1735686000".data, "1".data, "0".data)

/-- Raw data row for 2025-01-05. -/
def rowJan5 : RawRow := ("2025-01-05 00:00:00".data, "1736031600".data, "2".data, "0".data)

/-- Raw data row whose date string (month 13) fails to parse. -/
def rowBad : RawRow := ("2025-13-01 00:00:00".data, "1".data, "2".data, "0".data)

/-- C5: construction retains exactly the rows whose date-time string parses
with format `%Y-%m-%d %H:%M:%S` and whose three integer fields parse (the
retained records are a permutation-respecting filter of the input, each
failing row being dropped without aborting), and the result is sorted
ascending by date whatever the input order; concretely, an out-of-order input
with one invalid row yields the two valid records in ascending date order. -/
theorem C5_initPartitions :
    (∀ rows : List RawRow,
      (initPartitions rows).Perm (rows.filterMap parseRow)) ∧
    (∀ rows : List RawRow, List.Sorted dateLe (initPartitions rows)) ∧
    (∀ r : RawRow,
      (parseRow r).isSome ↔
        (parseYmdHms r.1).isSome ∧ (pyInt r.2.1).isSome ∧
        (pyInt r.2.2.1).isSome ∧ (pyInt r.2.2.2).isSome) ∧
    initPartitions [rowJan5, rowBad, rowJan1] = [recJan1, recJan5] := by
  refine ⟨?_, ?_, ?_, by decide⟩
  · intro rows
    exact List.perm_insertionSort dateLe (rows.filterMap parseRow)
  · intro rows
    have htot : IsTotal PartitionRecord dateLe := ⟨fun a b => le_total a.date b.date⟩
    have htrans : IsTrans PartitionRecord dateLe :=
      ⟨fun a b c h1 h2 => le_trans h1 h2⟩
    exact @List.sorted_insertionSort _ dateLe _ htot htrans _
  · intro r
    unfold parseRow
    cases h1 : parseYmdHms r.1 <;> cases h2 : pyInt r.2.1 <;>
      cases h3 : pyInt r.2.2.1 <;> cases h4 : pyInt r.2.2.2 <;>
      simp [h1, h2, h3, h4, Option.bind]

/-! ## Data lines (C6) -/

/-- C6: on a line whose stripped text begins with a `YYYY-MM-DD` date, the
scanning loop appends exactly the tuple described by `dataTuple` to the
current data buffer and moves on (both mid-file and on the last line); the
tuple is built from the whitespace-split parts as (parts 0 and 1 joined by a
space, part 2, part 3, part 4 if present else "0") when there are at least 4
parts, and no tuple is produced from fewer than 4 parts; concretely, a
4-token data line is recorded with row count "0". -/
theorem C6_parse_data_line :
    (∀ (l r : List Char) (rest' : List (List Char)) (td : Tables)
        (ct : Option (List Char)) (cd : List RawRow),
      dateMatch (pyStrip l) = true →
      parseLoop (l :: r :: rest') td ct cd =
        parseLoop (r :: rest') td ct (cd ++ (dataTuple (pyStrip l)).toList)) ∧
    (∀ (l : List Char) (td : Tables) (ct : Option (List Char)) (cd : List RawRow),
      dateMatch (pyStrip l) = true →
      parseLoop [l] td ct cd = finalSave td ct (cd ++ (dataTuple (pyStrip l)).toList)) ∧
    (∀ (line : List Char) (p0 p1 p2 p3 : List Char) (restp : List (List Char)),
      pySplit line = p0 :: p1 :: p2 :: p3 :: restp →
      dataTuple line = some (p0 ++ ' ' :: p1, p2, p3, restp.headD ['0'])) ∧
    (∀ line : List Char, (pySplit line).length < 4 → dataTuple line = none) ∧
    parse_result_file ["tbl".data, "2025-10-08 00:00:00 1759878000 89".data] =
      [("tbl".data,
        [("2025-10-08 00:00:00".data, "1759878000".data, "89".data, "0".data)])] := by
  refine ⟨?_, ?_, ?_, ?_, by decide⟩
  · intro l r rest' td ct cd h
    have hne : (pyStrip l).isEmpty = false := by
      cases hl : pyStrip l with
      | nil => rw [hl] at h; simp [dateMatch] at h
      | cons a t => rfl
    simp only [parseLoop, hne, Bool.false_eq_true, if_false, h, Bool.not_true,
      Bool.and_false, if_true]
    cases hdt : dataTuple (pyStrip l) <;> simp
  · intro l td ct cd h
    have hne : (pyStrip l).isEmpty = false := by
      cases hl : pyStrip l with
      | nil => rw [hl] at h; simp [dateMatch] at h
      | cons a t => rfl
    simp only [parseLoop, hne, Bool.false_eq_true, if_false, h, Bool.not_true,
      Bool.and_false, if_true]
    cases hdt : dataTuple (pyStrip l) <;> simp
  · intro line p0 p1 p2 p3 restp h
    unfold dataTuple
    rw [h]
  · intro line h
    unfold dataTuple
    split
    · rename_i p0 p1 p2 p3 restp heq
      rw [heq] at h
      simp at h
      omega
    · rfl

/-- Witness for C6: the two step equations applied to a concrete data line,
with the date-prefix hypothesis discharged there. -/
theorem C6_parse_data_line_witness :
    parseLoop ["2025-10-08 00:00:00 1759878000 89".data, "x".data] [] none [] =
      parseLoop ["x".data] [] none
        ([] ++ (dataTuple (pyStrip "2025-10-08 00:00:00 1759878000 89".data)).toList) ∧
    parseLoop ["2025-10-08 00:00:00 1759878000 89".data] [] none [] =
      finalSave [] none
        ([] ++ (dataTuple (pyStrip "2025-10-08 00:00:00 1759878000 89".data)).toList) :=
  ⟨C6_parse_data_line.1 "2025-10-08 00:00:00 1759878000 89".data "x".data [] [] none []
      (by decide),
   C6_parse_data_line.2.1 "2025-10-08 00:00:00 1759878000 89".data [] none [] (by decide)⟩

/-! ## Header and table-name lines (C7) -/

/-- Table-name line used in the C7 counterexample. -/
def c7table : List Char := "tableA".data

/-- First data line used in the C7 counterexample. -/
def c7data1 : List Char := "2025-01-01 00:00:00 100 1 0".data

/-- Mid-data header line used in the C7 counterexample (contains
"partition_description", no leading whitespace, not date-prefixed). -/
def c7hdr : List Char := "HEADER partition_description".data

/-- Second data line used in the C7 counterexample. -/
def c7data2 : List Char := "2025-01-02 00:00:00 200 2 0".data

/-- Counterexample to C7 as stated: the mid-data header line is NOT merely
"skipped" — processing it flushes the open table's accumulated records, and a
later flush of the same table overwrites them, so deleting the header line
from the input changes the final mapping (first conjunct vs second conjunct:
with the header line present the first data tuple is lost).  The remaining
conjuncts check that the line is indeed a non-empty header line with no
leading whitespace and no date prefix, i.e. exactly a line the claim calls
"skipped". -/
theorem C7_header_flush_counterexample :
    parse_result_file [c7table, c7data1, c7hdr, c7data2] =
      [("tableA".data, [("2025-01-02 00:00:00".data, "200".data, "2".data, "0".data)])] ∧
    parse_result_file [c7table, c7data1, c7data2] =
      [("tableA".data,
        [("2025-01-01 00:00:00".data, "100".data, "1".data, "0".data),
         ("2025-01-02 00:00:00".data, "200".data, "2".data, "0".data)])] ∧
    isHeaderLine (pyStrip c7hdr) = true ∧
    (pyStrip c7hdr).isEmpty = false ∧
    startsWithSpace c7hdr = false ∧
    dateMatch (pyStrip c7hdr) = false := by
  refine ⟨by decide, by decide, by decide, by decide, by decide, by decide⟩

/-- C7 (amended): a non-empty line with no leading whitespace and no
`YYYY-MM-DD` prefix first flushes the previously open table's accumulated
records (whether it turns out to be a header or a table name); a header line
(containing "from_unixtime" or "partition_description" case-insensitively)
is then skipped, leaving the current table unchanged and contributing no
tuple; any other such line starts a new table named by its stripped text;
and when the raw line following a table-name line contains "from_unixtime"
(case-insensitively) it is consumed by the table-name step — skipped without
being recorded or treated as a table name.  (A following header line that
contains only "partition_description" is instead handled by the general
header rule, flush included.) -/
theorem C7_header_table_lines :
    (∀ (l r : List Char) (rest' : List (List Char)) (td : Tables)
        (ct : Option (List Char)) (cd : List RawRow),
      (pyStrip l).isEmpty = false →
      startsWithSpace (pyStrip l) = false →
      dateMatch (pyStrip l) = false →
      isHeaderLine (pyStrip l) = true →
      parseLoop (l :: r :: rest') td ct cd =
        parseLoop (r :: rest') (flushAcc td ct cd).1 ct (flushAcc td ct cd).2) ∧
    (∀ (l r : List Char) (rest' : List (List Char)) (td : Tables)
        (ct : Option (List Char)) (cd : List RawRow),
      (pyStrip l).isEmpty = false →
      startsWithSpace (pyStrip l) = false →
      dateMatch (pyStrip l) = false →
      isHeaderLine (pyStrip l) = false →
      containsSub fuNeedle (pyLower r) = true →
      parseLoop (l :: r :: rest') td ct cd =
        parseLoop rest' (flushAcc td ct cd).1 (some (pyStrip l)) (flushAcc td ct cd).2) ∧
    (∀ (l r : List Char) (rest' : List (List Char)) (td : Tables)
        (ct : Option (List Char)) (cd : List RawRow),
      (pyStrip l).isEmpty = false →
      startsWithSpace (pyStrip l) = false →
      dateMatch (pyStrip l) = false →
      isHeaderLine (pyStrip l) = false →
      containsSub fuNeedle (pyLower r) = false →
      parseLoop (l :: r :: rest') td ct cd =
        parseLoop (r :: rest') (flushAcc td ct cd).1 (some (pyStrip l)) (flushAcc td ct cd).2) := by
  refine ⟨?_, ?_, ?_⟩
  · intro l r rest' td ct cd h1 h2 h3 h4
    simp [parseLoop, h1, h2, h3, h4]
  · intro l r rest' td ct cd h1 h2 h3 h4 h5
    simp [parseLoop, h1, h2, h3, h4, h5]
  · intro l r rest' td ct cd h1 h2 h3 h4 h5
    simp [parseLoop, h1, h2, h3, h4, h5]

/-- Witness for C7 (amended): the three step equations applied to concrete
lines, discharging all classification hypotheses by computation. -/
theorem C7_header_table_lines_witness :
    parseLoop [c7hdr, c7data2] [] (some "tableA".data)
        [("2025-01-01 00:00:00".data, "100".data, "1".data, "0".data)] =
      parseLoop [c7data2]
        (flushAcc [] (some "tableA".data)
          [("2025-01-01 00:00:00".data, "100".data, "1".data, "0".data)]).1
        (some "tableA".data)
        (flushAcc [] (some "tableA".data)
          [("2025-01-01 00:00:00".data, "100".data, "1".data, "0".data)]).2 ∧
    parseLoop [c7table, "from_unixtime(PARTITION_DESCRIPTION)".data, c7data1] [] none [] =
      parseLoop [c7data1] (flushAcc [] none []).1 (some (pyStrip c7table))
        (flushAcc [] none []).2 ∧
    parseLoop [c7table, c7data1] [] none [] =
      parseLoop [c7data1] (flushAcc [] none []).1 (some (pyStrip c7table))
        (flushAcc [] none []).2 :=
  ⟨C7_header_table_lines.1 c7hdr c7data2 [] [] (some "tableA".data)
      [("2025-01-01 00:00:00".data, "100".data, "1".data, "0".data)]
      (by decide) (by decide) (by decide) (by decide),
   C7_header_table_lines.2.1 c7table "from_unixtime(PARTITION_DESCRIPTION)".data
      [c7data1] [] none [] (by decide) (by decide) (by decide) (by decide) (by decide),
   C7_header_table_lines.2.2 c7table c7data1 [] [] none []
      (by decide) (by decide) (by decide) (by decide) (by decide)⟩

/-! ## Exit codes (C8) -/

/-- Input file with a partition gap (2025-01-02 .. 2025-01-04 missing). -/
def gapLines : List (List Char) :=
  ["mytable".data,
   "from_unixtime(PARTITION_DESCRIPTION) PARTITION_DESCRIPTION PARTITION_ORDINAL_POSITION TABLE_ROWS".data,
   "2025-01-01 00:00:00 1735686000 1 0".data,
   "2025-01-05 00:00:00 1736031600 2 0".data]

/-- C8: the modelled process exit code is always 0 or 1; it is 1 exactly when
the input file could not be read or the parsed mapping is empty; any readable
input with a nonempty parse exits 0; and on a concrete readable file whose
table has a partition gap (so `find_missing_dates` is nonempty) the exit code
is still 0 — gaps never cause a nonzero exit. -/
theorem C8_exit_codes :
    (∀ r : ReadOutcome, mainExitCode r = 0 ∨ mainExitCode r = 1) ∧
    (∀ r : ReadOutcome,
      mainExitCode r = 1 ↔
        r = .failure ∨ ∃ ls, r = .ok ls ∧ parse_result_file ls = []) ∧
    (∀ ls : List (List Char),
      parse_result_file ls ≠ [] → mainExitCode (.ok ls) = 0) ∧
    parse_result_file gapLines = [("mytable".data, [rowJan1, rowJan5])] ∧
    find_missing_dates (initPartitions [rowJan1, rowJan5]) ≠ [] ∧
    mainExitCode (.ok gapLines) = 0 := by
  refine ⟨?_, ?_, ?_, by decide, by decide, by decide⟩
  · intro r
    cases r with
    | failure => exact Or.inr rfl
    | ok ls =>
      simp only [mainExitCode]
      by_cases h : parse_result_file ls = []
      · rw [if_pos h]; exact Or.inr rfl
      · rw [if_neg h]; exact Or.inl rfl
  · intro r
    cases r with
    | failure => simp [mainExitCode]
    | ok ls =>
      simp only [mainExitCode]
      by_cases h : parse_result_file ls = []
      · rw [if_pos h]; simp [h]
      · rw [if_neg h]; simp [h]
  · intro ls h
    simp only [mainExitCode]
    rw [if_neg h]

/-- Witness for C8: the nonempty-parse part applied to the concrete gap file,
with its hypothesis discharged by computation. -/
theorem C8_exit_codes_witness : mainExitCode (.ok gapLines) = 0 :=
  C8_exit_codes.2.2.1 gapLines (by decide)

/-! ## Repeated table names (C9): flush-event characterisation -/

theorem dictLookup_dictInsert (td : Tables) (k : List Char) (v : List RawRow)
    (t : List Char) :
    dictLookup (dictInsert td k v) t = if k = t then some v else dictLookup td t := by
  induction td with
  | nil => simp [dictInsert, dictLookup]
  | cons e rest ih =>
    obtain ⟨k', v'⟩ := e
    by_cases hk : k' = k
    · subst hk
      by_cases ht : k' = t <;> simp [dictInsert, dictLookup, ht]
    · by_cases ht : k' = t
      · subst ht
        have hkt : ¬ k = k' := fun h => hk h.symm
        simp [dictInsert, dictLookup, hk, hkt]
      · simp [dictInsert, dictLookup, hk, ht, ih]

/-- Lookup of a table name among a chronological list of flush events: the
data of the last event for that name, if any. -/
def evLookup (evs : List (List Char × List RawRow)) (t : List Char) :
    Option (List RawRow) :=
  ((evs.filter (fun e => decide (e.1 = t))).getLast?).map Prod.snd

theorem optMap_or {α β : Type} (f : α → β) (x y : Option α) :
    (x.or y).map f = (x.map f).or (y.map f) := by
  cases x <;> rfl

theorem evLookup_append (a b : List (List Char × List RawRow)) (t : List Char) :
    evLookup (a ++ b) t = (evLookup b t).or (evLookup a t) := by
  unfold evLookup
  rw [List.filter_append, List.getLast?_append, optMap_or]

theorem flushAcc_snd (td : Tables) (ct : Option (List Char)) (cd : List RawRow) :
    (flushAcc td ct cd).2 = (flushAcc [] ct cd).2 := by
  cases ct with
  | none => rfl
  | some t => by_cases h : cd.isEmpty <;> simp [flushAcc, h]

theorem lookup_flushAcc (td : Tables) (ct : Option (List Char)) (cd : List RawRow)
    (t : List Char) :
    dictLookup (flushAcc td ct cd).1 t =
      (evLookup (flushEv ct cd) t).or (dictLookup td t) := by
  cases ct with
  | none => rfl
  | some t' =>
    by_cases h : cd.isEmpty
    · simp [flushAcc, flushEv, h, evLookup]
    · simp only [flushAcc, flushEv, h, Bool.false_eq_true, if_false]
      rw [dictLookup_dictInsert]
      by_cases ht : t' = t
      · simp [evLookup, ht]
      · simp [evLookup, ht]

theorem lookup_finalSave (td : Tables) (ct : Option (List Char)) (cd : List RawRow)
    (t : List Char) :
    dictLookup (finalSave td ct cd) t =
      (evLookup (flushEv ct cd) t).or (dictLookup td t) :=
  lookup_flushAcc td ct cd t

theorem parseLoop_lookup : ∀ (lines : List (List Char)) (td : Tables)
    (ct : Option (List Char)) (cd : List RawRow) (t : List Char),
    dictLookup (parseLoop lines td ct cd) t =
      (evLookup (flushEvents lines ct cd) t).or (dictLookup td t)
  | [], td, ct, cd, t => by
    simpa [parseLoop, flushEvents] using lookup_finalSave td ct cd t
  | [l], td, ct, cd, t => by
    simp only [parseLoop, flushEvents]
    by_cases h1 : (pyStrip l).isEmpty
    · simp only [h1, if_true]
      exact lookup_finalSave td ct cd t
    · simp only [h1, Bool.false_eq_true, if_false]
      by_cases h2 : (!startsWithSpace (pyStrip l) && !dateMatch (pyStrip l)) = true
      · simp only [h2, if_true]
        by_cases h3 : isHeaderLine (pyStrip l)
        · simp only [h3, if_true]
          rw [lookup_finalSave, lookup_flushAcc, evLookup_append, Option.or_assoc,
            flushAcc_snd]
        · simp only [h3, Bool.false_eq_true, if_false]
          rw [lookup_finalSave, lookup_flushAcc, evLookup_append, Option.or_assoc,
            flushAcc_snd]
      · simp only [h2, Bool.false_eq_true, if_false]
        by_cases h4 : dateMatch (pyStrip l)
        · simp only [h4, if_true]
          cases hdt : dataTuple (pyStrip l)
          · exact lookup_finalSave td ct cd t
          · exact lookup_finalSave td ct _ t
        · simp only [h4, Bool.false_eq_true, if_false]
          exact lookup_finalSave td ct cd t
  | l :: r :: rest', td, ct, cd, t => by
    simp only [parseLoop, flushEvents]
    by_cases h1 : (pyStrip l).isEmpty
    · simp only [h1, if_true]
      exact parseLoop_lookup (r :: rest') td ct cd t
    · simp only [h1, Bool.false_eq_true, if_false]
      by_cases h2 : (!startsWithSpace (pyStrip l) && !dateMatch (pyStrip l)) = true
      · simp only [h2, if_true]
        by_cases h3 : isHeaderLine (pyStrip l)
        · simp only [h3, if_true]
          rw [parseLoop_lookup (r :: rest'), lookup_flushAcc, evLookup_append,
            Option.or_assoc, flushAcc_snd]
        · simp only [h3, Bool.false_eq_true, if_false]
          by_cases h5 : containsSub fuNeedle (pyLower r)
          · simp only [h5, if_true]
            rw [parseLoop_lookup rest', lookup_flushAcc, evLookup_append,
              Option.or_assoc, flushAcc_snd]
          · simp only [h5, Bool.false_eq_true, if_false]
            rw [parseLoop_lookup (r :: rest'), lookup_flushAcc, evLookup_append,
              Option.or_assoc, flushAcc_snd]
      · simp only [h2, Bool.false_eq_true, if_false]
        by_cases h4 : dateMatch (pyStrip l)
        · simp only [h4, if_true]
          cases hdt : dataTuple (pyStrip l)
          · exact parseLoop_lookup (r :: rest') td ct cd t
          · exact parseLoop_lookup (r :: rest') td ct _ t
        · simp only [h4, Bool.false_eq_true, if_false]
          exact parseLoop_lookup (r :: rest') td ct cd t

theorem flushEv_nonempty (ct : Option (List Char)) (cd : List RawRow) :
    ∀ e ∈ flushEv ct cd, e.2 ≠ [] := by
  intro e he
  cases ct with
  | none => simp [flushEv] at he
  | some t' =>
    by_cases h : cd.isEmpty
    · simp [flushEv, h] at he
    · simp only [flushEv, h, Bool.false_eq_true, if_false, List.mem_singleton] at he
      subst he
      simpa [List.isEmpty_iff] using h

theorem flushEvents_nonempty : ∀ (lines : List (List Char))
    (ct : Option (List Char)) (cd : List RawRow),
    ∀ e ∈ flushEvents lines ct cd, e.2 ≠ []
  | [], ct, cd => by
    intro e he
    exact flushEv_nonempty ct cd e (by simpa [flushEvents] using he)
  | [l], ct, cd => by
    intro e he
    simp only [flushEvents] at he
    by_cases h1 : (pyStrip l).isEmpty
    · rw [if_pos h1] at he
      exact flushEv_nonempty ct cd e he
    · rw [if_neg (by simp [h1])] at he
      by_cases h2 : (!startsWithSpace (pyStrip l) && !dateMatch (pyStrip l)) = true
      · rw [if_pos h2] at he
        by_cases h3 : isHeaderLine (pyStrip l)
        · rw [if_pos h3] at he
          rcases List.mem_append.mp he with he | he
          · exact flushEv_nonempty ct cd e he
          · exact flushEv_nonempty ct _ e he
        · rw [if_neg (by simp [h3])] at he
          rcases List.mem_append.mp he with he | he
          · exact flushEv_nonempty ct cd e he
          · exact flushEv_nonempty _ _ e he
      · rw [if_neg h2] at he
        by_cases h4 : dateMatch (pyStrip l)
        · rw [if_pos (by simp [h4])] at he
          rcases hdt : dataTuple (pyStrip l) with _ | t'
          · rw [hdt] at he
            exact flushEv_nonempty ct cd e he
          · rw [hdt] at he
            exact flushEv_nonempty ct _ e he
        · rw [if_neg (by simp [h4])] at he
          exact flushEv_nonempty ct cd e he
  | l :: r :: rest', ct, cd => by
    intro e he
    simp only [flushEvents] at he
    by_cases h1 : (pyStrip l).isEmpty
    · rw [if_pos h1] at he
      exact flushEvents_nonempty (r :: rest') ct cd e he
    · rw [if_neg (by simp [h1])] at he
      by_cases h2 : (!startsWithSpace (pyStrip l) && !dateMatch (pyStrip l)) = true
      · rw [if_pos h2] at he
        by_cases h3 : isHeaderLine (pyStrip l)
        · rw [if_pos h3] at he
          rcases List.mem_append.mp he with he | he
          · exact flushEv_nonempty ct cd e he
          · exact flushEvents_nonempty (r :: rest') ct _ e he
        · rw [if_neg (by simp [h3])] at he
          by_cases h5 : containsSub fuNeedle (pyLower r)
          · rw [if_pos h5] at he
            rcases List.mem_append.mp he with he | he
            · exact flushEv_nonempty ct cd e he
            · exact flushEvents_nonempty rest' _ _ e he
          · rw [if_neg (by simp [h5])] at he
            rcases List.mem_append.mp he with he | he
            · exact flushEv_nonempty ct cd e he
            · exact flushEvents_nonempty (r :: rest') _ _ e he
      · rw [if_neg h2] at he
        by_cases h4 : dateMatch (pyStrip l)
        · rw [if_pos (by simp [h4])] at he
          rcases hdt : dataTuple (pyStrip l) with _ | t'
          · rw [hdt] at he
            exact flushEvents_nonempty (r :: rest') ct cd e he
          · rw [hdt] at he
            exact flushEvents_nonempty (r :: rest') ct _ e he
        · rw [if_neg (by simp [h4])] at he
          exact flushEvents_nonempty (r :: rest') ct cd e he

/-- Counterexample to C9 as stated: in the file [T, data, T] the name T
appears on two table-name lines, and the second (last) occurrence accumulates
no data tuples before end of file, so no final flush happens; the mapping
keeps the binding made when the second T line flushed the FIRST occurrence's
tuple.  The claim predicts the binding holds only tuples accumulated for the
last occurrence (none) and that earlier occurrences' tuples are discarded;
instead the first occurrence's tuple is exactly what remains (first
conjunct), identical to the file without the repeated line (second
conjunct). -/
theorem C9_repeated_table_counterexample :
    parse_result_file ["T".data, c7data1, "T".data] =
      [("T".data, [("2025-01-01 00:00:00".data, "100".data, "1".data, "0".data)])] ∧
    parse_result_file ["T".data, c7data1] =
      [("T".data, [("2025-01-01 00:00:00".data, "100".data, "1".data, "0".data)])] :=
  ⟨by decide, by decide⟩

/-- C9 (amended): the mapping binds a table name to the data of the LAST
FLUSH performed for that name — a flush happens at a table-name or header
boundary (or end of file) when the accumulation buffer is nonempty, so the
binding is the last nonempty batch of tuples accumulated for the name, not a
merge; an occurrence of the name that accumulates no tuples performs no flush
and leaves the earlier binding in place.  When the last occurrence does
accumulate tuples, only those tuples survive (third conjunct). -/
theorem C9_repeated_table_amended :
    (∀ (lines : List (List Char)) (t : List Char),
      dictLookup (parse_result_file lines) t = evLookup (flushEvents lines none []) t) ∧
    (∀ (lines : List (List Char)) (e : List Char × List RawRow),
      e ∈ flushEvents lines none [] → e.2 ≠ []) ∧
    parse_result_file ["T".data, c7data1, "T".data, c7data2] =
      [("T".data, [("2025-01-02 00:00:00".data, "200".data, "2".data, "0".data)])] := by
  refine ⟨?_, ?_, by decide⟩
  · intro lines t
    unfold parse_result_file
    rw [parseLoop_lookup lines [] none [] t]
    simp [dictLookup, Option.or_none]
  · intro lines e he
    exact flushEvents_nonempty lines none [] e he

/-- Witness for C9 (amended): the nonemptiness of flush events applied to a
concrete flush event of the counterexample file. -/
theorem C9_repeated_table_amended_witness :
    (("T".data, [("2025-01-01 00:00:00".data, "100".data, "1".data,
        "0".data)]) : List Char × List RawRow).2 ≠ [] :=
  C9_repeated_table_amended.2.1 ["T".data, c7data1, "T".data]
    ("T".data, [("2025-01-01 00:00:00".data, "100".data, "1".data, "0".data)])
    (by decide)

/-! ## Nonempty values (C10) -/

theorem mem_dictInsert (td : Tables) (k : List Char) (v : List RawRow)
    (e : List Char × List RawRow) :
    e ∈ dictInsert td k v → e.2 = v ∨ e ∈ td := by
  induction td with
  | nil =>
    intro he
    simp only [dictInsert, List.mem_singleton] at he
    subst he
    exact Or.inl rfl
  | cons e' rest ih =>
    obtain ⟨k', v'⟩ := e'
    intro he
    by_cases hk : k' = k
    · simp only [dictInsert, if_pos hk, List.mem_cons] at he
      rcases he with rfl | he
      · exact Or.inl rfl
      · exact Or.inr (List.mem_cons_of_mem _ he)
    · simp only [dictInsert, if_neg hk, List.mem_cons] at he
      rcases he with rfl | he
      · exact Or.inr (List.mem_cons_self _ _)
      · rcases ih he with h | h
        · exact Or.inl h
        · exact Or.inr (List.mem_cons_of_mem _ h)

theorem mem_flushAcc (td : Tables) (ct : Option (List Char)) (cd : List RawRow)
    (e : List Char × List RawRow) :
    e ∈ (flushAcc td ct cd).1 → e ∈ td ∨ (e.2 = cd ∧ cd ≠ []) := by
  intro he
  cases ct with
  | none => exact Or.inl he
  | some t' =>
    by_cases h : cd.isEmpty
    · rw [flushAcc, if_pos h] at he
      exact Or.inl he
    · rw [flushAcc, if_neg h] at he
      rcases mem_dictInsert td t' cd e he with h2 | h2
      · exact Or.inr ⟨h2, by simpa [List.isEmpty_iff] using h⟩
      · exact Or.inl h2

theorem parseLoop_values_nonempty : ∀ (lines : List (List Char)) (td : Tables)
    (ct : Option (List Char)) (cd : List RawRow),
    (∀ e ∈ td, e.2 ≠ []) → ∀ e ∈ parseLoop lines td ct cd, e.2 ≠ []
  | [], td, ct, cd => by
    intro hinv e he
    simp only [parseLoop, finalSave] at he
    rcases mem_flushAcc td ct cd e he with h | ⟨h2, hne⟩
    · exact hinv e h
    · rw [h2]; exact hne
  | [l], td, ct, cd => by
    intro hinv e he
    have hfin : ∀ (td' : Tables) (ct' : Option (List Char)) (cd' : List RawRow),
        (∀ x ∈ td', x.2 ≠ []) → e ∈ finalSave td' ct' cd' → e.2 ≠ [] := by
      intro td' ct' cd' hinv' he'
      rcases mem_flushAcc td' ct' cd' e he' with h | ⟨h2, hne⟩
      · exact hinv' e h
      · rw [h2]; exact hne
    have hflush : ∀ x ∈ (flushAcc td ct cd).1, x.2 ≠ [] := by
      intro x hx
      rcases mem_flushAcc td ct cd x hx with h | ⟨h2, hne⟩
      · exact hinv x h
      · rw [h2]; exact hne
    simp only [parseLoop] at he
    by_cases h1 : (pyStrip l).isEmpty
    · rw [if_pos h1] at he
      exact hfin td ct cd hinv he
    · rw [if_neg (by simp [h1])] at he
      by_cases h2 : (!startsWithSpace (pyStrip l) && !dateMatch (pyStrip l)) = true
      · rw [if_pos h2] at he
        by_cases h3 : isHeaderLine (pyStrip l)
        · rw [if_pos h3] at he
          exact hfin _ _ _ hflush he
        · rw [if_neg (by simp [h3])] at he
          exact hfin _ _ _ hflush he
      · rw [if_neg h2] at he
        by_cases h4 : dateMatch (pyStrip l)
        · rw [if_pos (by simp [h4])] at he
          rcases hdt : dataTuple (pyStrip l) with _ | t'
          · rw [hdt] at he
            exact hfin td ct cd hinv he
          · rw [hdt] at he
            exact hfin td ct _ hinv he
        · rw [if_neg (by simp [h4])] at he
          exact hfin td ct cd hinv he
  | l :: r :: rest', td, ct, cd => by
    intro hinv e he
    have hflush : ∀ x ∈ (flushAcc td ct cd).1, x.2 ≠ [] := by
      intro x hx
      rcases mem_flushAcc td ct cd x hx with h | ⟨h2, hne⟩
      · exact hinv x h
      · rw [h2]; exact hne
    simp only [parseLoop] at he
    by_cases h1 : (pyStrip l).isEmpty
    · rw [if_pos h1] at he
      exact parseLoop_values_nonempty (r :: rest') td ct cd hinv e he
    · rw [if_neg (by simp [h1])] at he
      by_cases h2 : (!startsWithSpace (pyStrip l) && !dateMatch (pyStrip l)) = true
      · rw [if_pos h2] at he
        by_cases h3 : isHeaderLine (pyStrip l)
        · rw [if_pos h3] at he
          exact parseLoop_values_nonempty (r :: rest') _ _ _ hflush e he
        · rw [if_neg (by simp [h3])] at he
          by_cases h5 : containsSub fuNeedle (pyLower r)
          · rw [if_pos h5] at he
            exact parseLoop_values_nonempty rest' _ _ _ hflush e he
          · rw [if_neg (by simp [h5])] at he
            exact parseLoop_values_nonempty (r :: rest') _ _ _ hflush e he
      · rw [if_neg h2] at he
        by_cases h4 : dateMatch (pyStrip l)
        · rw [if_pos (by simp [h4])] at he
          rcases hdt : dataTuple (pyStrip l) with _ | t'
          · rw [hdt] at he
            exact parseLoop_values_nonempty (r :: rest') td ct cd hinv e he
          · rw [hdt] at he
            exact parseLoop_values_nonempty (r :: rest') td ct _ hinv e he
        · rw [if_neg (by simp [h4])] at he
          exact parseLoop_values_nonempty (r :: rest') td ct cd hinv e he

theorem flushAcc_nil_cd (td : Tables) (ct : Option (List Char)) :
    flushAcc td ct [] = (td, []) := by
  cases ct with
  | none => rfl
  | some t' => rfl

theorem parseLoop_no_data : ∀ (lines : List (List Char)) (td : Tables)
    (ct : Option (List Char)),
    (∀ l ∈ lines, dateMatch (pyStrip l) = false) → parseLoop lines td ct [] = td
  | [], td, ct => by
    intro _
    simp [parseLoop, finalSave, flushAcc_nil_cd]
  | [l], td, ct => by
    intro hnd
    have h4 : dateMatch (pyStrip l) = false := hnd l (List.mem_singleton_self l)
    simp only [parseLoop]
    by_cases h1 : (pyStrip l).isEmpty
    · rw [if_pos h1]
      simp [finalSave, flushAcc_nil_cd]
    · rw [if_neg (by simp [h1])]
      by_cases h2 : (!startsWithSpace (pyStrip l) && !dateMatch (pyStrip l)) = true
      · rw [if_pos h2, flushAcc_nil_cd]
        by_cases h3 : isHeaderLine (pyStrip l)
        · rw [if_pos h3]
          simp [finalSave, flushAcc_nil_cd]
        · rw [if_neg (by simp [h3])]
          simp [finalSave, flushAcc_nil_cd]
      · rw [if_neg h2, if_neg (by simp [h4])]
        simp [finalSave, flushAcc_nil_cd]
  | l :: r :: rest', td, ct => by
    intro hnd
    have h4 : dateMatch (pyStrip l) = false := hnd l (List.mem_cons_self _ _)
    have hndr : ∀ x ∈ r :: rest', dateMatch (pyStrip x) = false := by
      intro x hx
      exact hnd x (List.mem_cons_of_mem _ hx)
    simp only [parseLoop]
    by_cases h1 : (pyStrip l).isEmpty
    · rw [if_pos h1]
      exact parseLoop_no_data (r :: rest') td ct hndr
    · rw [if_neg (by simp [h1])]
      by_cases h2 : (!startsWithSpace (pyStrip l) && !dateMatch (pyStrip l)) = true
      · rw [if_pos h2, flushAcc_nil_cd]
        by_cases h3 : isHeaderLine (pyStrip l)
        · rw [if_pos h3]
          exact parseLoop_no_data (r :: rest') td ct hndr
        · rw [if_neg (by simp [h3])]
          by_cases h5 : containsSub fuNeedle (pyLower r)
          · rw [if_pos h5]
            exact parseLoop_no_data rest' td _ (by
              intro x hx
              exact hndr x (List.mem_cons_of_mem _ hx))
          · rw [if_neg (by simp [h5])]
            exact parseLoop_no_data (r :: rest') td _ hndr
      · rw [if_neg h2, if_neg (by simp [h4])]
        exact parseLoop_no_data (r :: rest') td ct hndr

/-- Counterexample to C10 as stated: in the file [data-line, T2] the
table-name line T2 is followed by no data lines at all (before end of file),
yet the returned mapping does bind T2.  The data line precedes any table-name
line, so it accumulates while `current_table` is `None`; the guarded flush at
lines 231-233 therefore neither fires nor resets the buffer when T2 is
reached, and the final flush at lines 269-271 attributes the stray tuple to
T2.  The remaining conjuncts check that the second line is a genuine
table-name line (non-empty, no leading whitespace, not date-prefixed, not a
header). -/
theorem C10_no_entry_counterexample :
    parse_result_file ["2025-01-01 00:00:00 100 1 0".data, "T2".data] =
      [("T2".data,
        [("2025-01-01 00:00:00".data, "100".data, "1".data, "0".data)])] ∧
    dateMatch (pyStrip "T2".data) = false ∧
    isHeaderLine (pyStrip "T2".data) = false ∧
    (pyStrip "T2".data).isEmpty = false ∧
    startsWithSpace "T2".data = false :=
  ⟨by decide, by decide, by decide, by decide, by decide⟩

/-- C10 (amended): every value of the mapping returned by
`parse_result_file` is a nonempty list of tuples, and a name has an entry
exactly when some flush wrote one for it (entries are only ever written by a
flush, which is guarded by a nonempty buffer); a table-name line reached
with an empty accumulation buffer and followed by no data lines produces no
entry; a file without any data line — e.g. only table-name and header lines
— yields the empty mapping (concretely, a table-name line, a header line and
another table-name line produce no entry at all).  Exception forced by the
counterexample: data lines occurring before any table-name line accumulate
silently (the flush guard requires a current table) and are attributed to
the first table-name line encountered, which can give a table-name line
followed by no data lines an entry (last conjunct). -/
theorem C10_values_nonempty :
    (∀ (lines : List (List Char)) (e : List Char × List RawRow),
      e ∈ parse_result_file lines → e.2 ≠ []) ∧
    (∀ (lines : List (List Char)) (t : List Char),
      (dictLookup (parse_result_file lines) t).isSome = true ↔
        (flushEvents lines none []).filter (fun e => decide (e.1 = t)) ≠ []) ∧
    (∀ (l : List Char) (rest : List (List Char)) (td : Tables)
        (ct : Option (List Char)),
      dateMatch (pyStrip l) = false →
      (∀ x ∈ rest, dateMatch (pyStrip x) = false) →
      parseLoop (l :: rest) td ct [] = td) ∧
    (∀ lines : List (List Char),
      (∀ l ∈ lines, dateMatch (pyStrip l) = false) → parse_result_file lines = []) ∧
    parse_result_file ["T1".data,
      "from_unixtime(PARTITION_DESCRIPTION) PARTITION_DESCRIPTION".data,
      "T2".data] = [] ∧
    parse_result_file ["2025-01-01 00:00:00 100 1 0".data, "T2".data] =
      [("T2".data,
        [("2025-01-01 00:00:00".data, "100".data, "1".data, "0".data)])] := by
  refine ⟨?_, ?_, ?_, ?_, by decide, by decide⟩
  · intro lines e he
    exact parseLoop_values_nonempty lines [] none [] (by simp) e he
  · intro lines t
    unfold parse_result_file
    rw [parseLoop_lookup lines [] none [] t]
    simp only [dictLookup, Option.or_none, evLookup]
    have hmap : ∀ o : Option (List Char × List RawRow),
        (o.map Prod.snd).isSome = o.isSome := by
      intro o; cases o <;> rfl
    rw [hmap, List.getLast?_isSome]
  · intro l rest td ct h1 h2
    refine parseLoop_no_data (l :: rest) td ct ?_
    intro x hx
    rcases List.mem_cons.mp hx with rfl | hx
    · exact h1
    · exact h2 x hx
  · intro lines hnd
    exact parseLoop_no_data lines [] none hnd

/-- Witness for C10 (amended): the hypothesized parts applied to concrete
inputs — the nonemptiness of a concrete entry, the no-entry behaviour of a
lone table-name line reached with an empty buffer, and the empty mapping of
a file with only table-name lines — discharging every hypothesis by
computation. -/
theorem C10_values_nonempty_witness :
    (("mytable".data, [rowJan1, rowJan5]) : List Char × List RawRow).2 ≠ [] ∧
    parseLoop ["T2".data] [] none [] = [] ∧
    parse_result_file ["T1".data, "T2".data] = [] :=
  ⟨C10_values_nonempty.1 gapLines ("mytable".data, [rowJan1, rowJan5]) (by decide),
   C10_values_nonempty.2.2.1 "T2".data [] [] none (by decide) (by simp),
   C10_values_nonempty.2.2.2.1 ["T1".data, "T2".data] (by decide)⟩

end MissingDate
